import Mathlib

/-!
Verification of the sniplate record service core: the snip data model, field
validation, filter / sort safelisting, and the concurrency-controlled store
operations (Insert, Get, GetAll, Update, Delete) from internal/data/snips.go,
together with the filter and validator components they rely on.

The store is embedded as an explicit table state (a list of rows plus the
next auto-increment id), and each SQL statement of the Go code is translated
to an explicit function on that state following PostgreSQL semantics.
-/

namespace Sniplate

/-! ### Validator (internal/validator)

Modelled from the spec: the validator package is not among the repository
files given; per the spec it is a mapping from field name to a single
human-readable error message, first error per field wins, with check,
addError and valid operations, plus a Unique helper used by snip
validation. -/

/-- Modelled from the spec: a field-error accumulator mapping field names to
one message each, first error per field wins. -/
structure Validator where
  Errors : List (String × String)
deriving DecidableEq

/-- Modelled from the spec: a fresh validator with an empty error mapping. -/
def Validator.new : Validator := ⟨[]⟩

/-- Whether the validator already holds an error for the given field. -/
def Validator.hasError (v : Validator) (field : String) : Bool :=
  v.Errors.any (fun e => e.1 == field)

/-- Modelled from the spec: addError records a message for a field only when
no entry yet exists for that key (first error per field wins). -/
def Validator.addError (v : Validator) (field message : String) : Validator :=
  if v.hasError field then v else ⟨v.Errors ++ [(field, message)]⟩

/-- Modelled from the spec: check adds an entry only when the condition is
false. -/
def Validator.check (v : Validator) (ok : Bool) (field message : String) : Validator :=
  if ok then v else v.addError field message

/-- Modelled from the spec: valid is true iff the error mapping is empty. -/
def Validator.valid (v : Validator) : Bool := v.Errors.isEmpty

/-- Modelled from the spec: Unique reports whether all entries of the list
are pairwise distinct (set-based duplicate check, exact string equality). -/
def Unique : List String → Bool
  | [] => true
  | x :: rest => !rest.contains x && Unique rest

/-! ### The Snip record (internal/data/snips.go) -/

/-- The snip entity: machine integers of the Go struct (int64 id, int32
version) are embedded as Int, the timestamp as an abstract Nat. -/
structure Snip where
  ID : Int
  CreatedAt : Nat
  Title : String
  Content : String
  Tags : List String
  Version : Int
deriving DecidableEq

/-- ValidateSnip from internal/data/snips.go: each Go v.Check call in source
order; Go len on a string is its byte length, so String.utf8ByteSize. -/
def ValidateSnip (v : Validator) (snip : Snip) : Validator :=
  let v := v.check (snip.Title != "") "title" "must be provided"
  let v := v.check (decide (snip.Title.utf8ByteSize ≤ 1000)) "title"
    "must not be more than 500 bytes long"
  let v := v.check (decide (snip.Content.utf8ByteSize ≤ 100000)) "content"
    "must not be more than 100000 bytes long"
  let v := v.check (decide (0 ≤ snip.Tags.length)) "tags" "may not contain negative tags"
  let v := v.check (decide (snip.Tags.length ≤ 10)) "tags" "must contain no more than 5 tags"
  let v := v.check (Unique snip.Tags) "tags" "must not contain duplicate values"
  snip.Tags.foldl
    (fun acc tag => acc.check (tag != "") "tags" "tags must not contain empty values") v

/-! ### Filters (internal/data/filters.go)

Modelled from the spec: the filters file is not among the repository files
given (only its callers are); fields and methods follow the spec wording in
sections 4.2 and 9. -/

/-- The filter spec carried by list requests, as populated by
listSnipsHandler. -/
structure Filters where
  Page : Int
  PageSize : Int
  sort : String
  SortSafelist : List String
deriving DecidableEq

/-- The sort string with one optional leading dash removed. -/
def stripDash (s : String) : String :=
  match s.data with
  | '-' :: rest => String.mk rest
  | _ => s

/-- Whether the sort string carries the leading descending-order dash. -/
def hasDash (s : String) : Bool :=
  match s.data with
  | '-' :: _ => true
  | _ => false

/-- Modelled from the spec: sortColumn is the bare field name with any
leading dash stripped, looked up in the safelist, failing closed (none) on a
miss. -/
def Filters.sortColumn (f : Filters) : Option String :=
  if f.SortSafelist.contains (stripDash f.sort) then some (stripDash f.sort) else none

/-- Modelled from the spec: DESC when the sort value has a leading dash,
ASC otherwise. -/
def Filters.sortDirection (f : Filters) : String :=
  if hasDash f.sort then "DESC" else "ASC"

/-- Modelled from the spec: limit() = page_size. -/
def Filters.limit (f : Filters) : Int := f.PageSize

/-- Modelled from the spec: offset() = (page-1) * page_size. -/
def Filters.offset (f : Filters) : Int := (f.Page - 1) * f.PageSize

/-- Modelled from the spec: ValidateFilters checks page in (0, 10000000],
page_size in [1, 100], and that the sort value, after stripping an optional
leading dash, is in the safelist. -/
def ValidateFilters (v : Validator) (f : Filters) : Validator :=
  let v := v.check (decide (0 < f.Page)) "page" "must be greater than zero"
  let v := v.check (decide (f.Page ≤ 10000000)) "page" "must be a maximum of 10 million"
  let v := v.check (decide (0 < f.PageSize)) "page_size" "must be greater than zero"
  let v := v.check (decide (f.PageSize ≤ 100)) "page_size" "must be a maximum of 100"
  v.check (f.SortSafelist.contains (stripDash f.sort)) "sort" "invalid sort value"

/-- Decidable equality of Except results, so concrete runs of the store
operations can be checked by evaluation. -/
instance {ε α : Type} [DecidableEq ε] [DecidableEq α] : DecidableEq (Except ε α) :=
  fun a b =>
    match a, b with
    | Except.ok x, Except.ok y =>
      if h : x = y then isTrue (congrArg Except.ok h)
      else isFalse (fun hc => h (Except.ok.inj hc))
    | Except.error x, Except.error y =>
      if h : x = y then isTrue (congrArg Except.error h)
      else isFalse (fun hc => h (Except.error.inj hc))
    | Except.ok _, Except.error _ => isFalse (fun hc => Except.noConfusion hc)
    | Except.error _, Except.ok _ => isFalse (fun hc => Except.noConfusion hc)

/-! ### Store errors (internal/data) -/

/-- The typed errors of the data layer: ErrRecordNotFound, ErrEditConflict,
and a generic store failure carrying the executor message. -/
inductive ModelError where
  | recordNotFound
  | editConflict
  | storeError (msg : String)
deriving DecidableEq

/-! ### The backing table -/

/-- The snips table: its rows and the next bigserial id value. -/
structure DB where
  rows : List Snip
  nextId : Int
deriving DecidableEq

/-- Table well-formedness: ids are pairwise distinct (primary key), every id
is at least 1 and below the auto-increment counter, which starts at 1. -/
def DB.WF (db : DB) : Prop :=
  db.rows.Pairwise (fun a b => a.ID ≠ b.ID) ∧
  (∀ r ∈ db.rows, 1 ≤ r.ID ∧ r.ID < db.nextId) ∧
  1 ≤ db.nextId

instance (db : DB) : Decidable db.WF := by unfold DB.WF; infer_instance

/-! ### Store operations (SnipModel) -/

/-- SnipModel.Insert: INSERT INTO snips (title, content, tags) VALUES
($1,$2,$3) RETURNING id, created_at, version. The server assigns the next
id, the current time and version 1 (the schema default), and the returned
snip carries the system-generated values scanned back. -/
def SnipModel.Insert (db : DB) (now : Nat) (snip : Snip) : DB × Snip :=
  let populated : Snip :=
    { ID := db.nextId, CreatedAt := now, Title := snip.Title,
      Content := snip.Content, Tags := snip.Tags, Version := 1 }
  ({ rows := db.rows ++ [populated], nextId := db.nextId + 1 }, populated)

/-- SnipModel.Get: returns ErrRecordNotFound for id below 1 before any store
round trip; otherwise runs SELECT ... WHERE id = $1. The fail argument
injects an executor failure for that round trip: no matching row maps to
ErrRecordNotFound, any other failure propagates. -/
def SnipModel.Get (db : DB) (id : Int) (fail : Option String) : Except ModelError Snip :=
  if id < 1 then Except.error ModelError.recordNotFound
  else
    match fail with
    | some e => Except.error (ModelError.storeError e)
    | none =>
      match db.rows.find? (fun r => r.ID == id) with
      | some r => Except.ok r
      | none => Except.error ModelError.recordNotFound

/-- SnipModel.Update: UPDATE snips SET title=$1, content=$2, tags=$3,
version = version + 1 WHERE id = $4 AND version = $5 RETURNING version.
Rows matching the predicate get the new fields and an incremented version;
zero matched rows means Scan sees no row and the call reports
ErrEditConflict with the table unchanged. -/
def SnipModel.Update (db : DB) (snip : Snip) : DB × Except ModelError Int :=
  let hit := fun r : Snip => r.ID == snip.ID && r.Version == snip.Version
  if db.rows.any hit then
    ({ db with rows := db.rows.map (fun r =>
        if hit r then
          { r with Title := snip.Title, Content := snip.Content,
                   Tags := snip.Tags, Version := r.Version + 1 }
        else r) },
     Except.ok (snip.Version + 1))
  else (db, Except.error ModelError.editConflict)

/-- SnipModel.Delete: returns ErrRecordNotFound for id below 1; otherwise
DELETE FROM snips WHERE id = $1, mapping zero affected rows to
ErrRecordNotFound and a positive count to success. -/
def SnipModel.Delete (db : DB) (id : Int) : DB × Except ModelError Unit :=
  if id < 1 then (db, Except.error ModelError.recordNotFound)
  else
    let remaining := db.rows.filter (fun r => !(r.ID == id))
    let rowsAffected := db.rows.length - remaining.length
    if rowsAffected == 0 then (db, Except.error ModelError.recordNotFound)
    else ({ db with rows := remaining }, Except.ok ())

/-! ### The search query (SnipModel.GetAll) -/

/-- Word accumulator for tsTokens: splits on spaces, lowercases characters,
drops empty tokens. -/
def lowerWords : List Char → List Char → List String
  | [], acc => if acc.isEmpty then [] else [String.mk acc.reverse]
  | c :: rest, acc =>
    if c = ' ' then
      if acc.isEmpty then lowerWords rest []
      else String.mk acc.reverse :: lowerWords rest []
    else lowerWords rest (Char.toLower c :: acc)

/-- Lexical tokens of a string under the simple text-search configuration:
lowercased, split on spaces, empty tokens dropped. -/
def tsTokens (s : String) : List String :=
  lowerWords s.data []

/-- The predicate to_tsvector(simple, t) matching plainto_tsquery(simple, q):
every token of the query occurs among the tokens of the title; a query with
no tokens yields the empty tsquery, which matches nothing. -/
def plainMatch (q t : String) : Bool :=
  let qs := tsTokens q
  !qs.isEmpty && qs.all (fun w => (tsTokens t).contains w)

/-- The WHERE clause of GetAll: (title matches $1 OR $1 = empty) AND
(tags contain all of $2 OR $2 is the empty array). -/
def rowMatches (title : String) (tags : List String) (r : Snip) : Bool :=
  (plainMatch title r.Title || title == "") &&
  (tags.all (fun tg => r.Tags.contains tg) || tags.isEmpty)

/-- Comparison of two rows by one sort key then ascending id: the ORDER BY
key <dir>, id ASC ordering for a key column read off by key, descending on
the primary key when desc is true. -/
def lexLE {α : Type} [LinearOrder α] (key : Snip → α) (desc : Bool) (a b : Snip) : Bool :=
  if desc then
    decide (key b < key a) || (decide (key b = key a) && decide (a.ID ≤ b.ID))
  else
    decide (key a < key b) || (decide (key a = key b) && decide (a.ID ≤ b.ID))

/-- Row comparison for a named column of the snips schema, then ascending
id. -/
def colLE (c : String) (desc : Bool) (a b : Snip) : Bool :=
  if c == "title" then lexLE (fun s => s.Title) desc a b
  else if c == "content" then lexLE (fun s => s.Content) desc a b
  else if c == "created_at" then lexLE (fun s => s.CreatedAt) desc a b
  else if c == "version" then lexLE (fun s => s.Version) desc a b
  else lexLE (fun s => s.ID) desc a b

/-- SnipModel.GetAll: SELECT ... WHERE (to_tsvector(title) matches $1 OR
$1 = empty) AND (tags contain $2 OR $2 empty) ORDER BY <sortColumn>
<sortDirection>, id ASC. The query string interpolates the resolved sort
column, which per the spec fails closed when the sort value misses the
safelist. The source query carries no LIMIT or OFFSET and computes no
count, so every matching row is returned. -/
def SnipModel.GetAll (db : DB) (title : String) (tags : List String) (filters : Filters) :
    Except ModelError (List Snip) :=
  match filters.sortColumn with
  | none => Except.error (ModelError.storeError "sort value not in safelist")
  | some c =>
    let desc := filters.sortDirection == "DESC"
    let matched := db.rows.filter (rowMatches title tags)
    Except.ok (List.insertionSort (fun a b => colLE c desc a b = true) matched)

/-- The filter values listSnipsHandler builds for a request that supplies no
query parameters: page 1, page size 20, sort id, and the fixed safelist. -/
def defaultFilters : Filters :=
  { Page := 1, PageSize := 20, sort := "id",
    SortSafelist := ["id", "title", "content", "-id", "-title", "-content"] }

end Sniplate

namespace Sniplate

/-! ### Properties of the row ordering -/

/-- Unfolding of lexLE in the ascending direction. -/
theorem lexLE_false_iff {α : Type} [LinearOrder α] (key : Snip → α) (a b : Snip) :
    lexLE key false a b = true ↔ key a < key b ∨ (key a = key b ∧ a.ID ≤ b.ID) := by
  simp [lexLE]

/-- Unfolding of lexLE in the descending direction. -/
theorem lexLE_true_iff {α : Type} [LinearOrder α] (key : Snip → α) (a b : Snip) :
    lexLE key true a b = true ↔ key b < key a ∨ (key b = key a ∧ a.ID ≤ b.ID) := by
  simp [lexLE]

/-- The key-then-id comparison relates every pair one way or the other. -/
theorem lexLE_total {α : Type} [LinearOrder α] (key : Snip → α) (d : Bool) (a b : Snip) :
    lexLE key d a b = true ∨ lexLE key d b a = true := by
  cases d
  · simp only [lexLE_false_iff]
    rcases lt_trichotomy (key a) (key b) with h | h | h
    · exact Or.inl (Or.inl h)
    · rcases Int.le_total a.ID b.ID with hid | hid
      · exact Or.inl (Or.inr ⟨h, hid⟩)
      · exact Or.inr (Or.inr ⟨h.symm, hid⟩)
    · exact Or.inr (Or.inl h)
  · simp only [lexLE_true_iff]
    rcases lt_trichotomy (key a) (key b) with h | h | h
    · exact Or.inr (Or.inl h)
    · rcases Int.le_total a.ID b.ID with hid | hid
      · exact Or.inl (Or.inr ⟨h.symm, hid⟩)
      · exact Or.inr (Or.inr ⟨h, hid⟩)
    · exact Or.inl (Or.inl h)

/-- The key-then-id comparison is transitive. -/
theorem lexLE_trans {α : Type} [LinearOrder α] (key : Snip → α) (d : Bool)
    {a b c : Snip} (hab : lexLE key d a b = true) (hbc : lexLE key d b c = true) :
    lexLE key d a c = true := by
  cases d
  · simp only [lexLE_false_iff] at hab hbc ⊢
    rcases hab with h1 | ⟨h1, hid1⟩ <;> rcases hbc with h2 | ⟨h2, hid2⟩
    · exact Or.inl (lt_trans h1 h2)
    · exact Or.inl (h2 ▸ h1)
    · exact Or.inl (h1 ▸ h2)
    · exact Or.inr ⟨h1.trans h2, le_trans hid1 hid2⟩
  · simp only [lexLE_true_iff] at hab hbc ⊢
    rcases hab with h1 | ⟨h1, hid1⟩ <;> rcases hbc with h2 | ⟨h2, hid2⟩
    · exact Or.inl (lt_trans h2 h1)
    · exact Or.inl (lt_of_le_of_lt (le_of_eq h2) h1)
    · exact Or.inl (lt_of_lt_of_le h2 (le_of_eq h1))
    · exact Or.inr ⟨h2.trans h1, le_trans hid1 hid2⟩

/-- Two rows each below the other under the key-then-id comparison share an
id: the secondary tie-break makes the order total on distinct ids. -/
theorem lexLE_antisymm_id {α : Type} [LinearOrder α] (key : Snip → α) (d : Bool)
    {a b : Snip} (hab : lexLE key d a b = true) (hba : lexLE key d b a = true) :
    a.ID = b.ID := by
  cases d
  · simp only [lexLE_false_iff] at hab hba
    rcases hab with h1 | ⟨h1, hid1⟩ <;> rcases hba with h2 | ⟨h2, hid2⟩
    · exact absurd (lt_trans h1 h2) (lt_irrefl _)
    · exact absurd h1 (h2 ▸ lt_irrefl _)
    · exact absurd h2 (h1 ▸ lt_irrefl _)
    · exact le_antisymm hid1 hid2
  · simp only [lexLE_true_iff] at hab hba
    rcases hab with h1 | ⟨h1, hid1⟩ <;> rcases hba with h2 | ⟨h2, hid2⟩
    · exact absurd (lt_trans h1 h2) (lt_irrefl _)
    · exact absurd h1 (h2 ▸ lt_irrefl _)
    · exact absurd h2 (h1 ▸ lt_irrefl _)
    · exact le_antisymm hid1 hid2

/-- Totality of the column comparison. -/
theorem colLE_total (c : String) (d : Bool) (a b : Snip) :
    colLE c d a b = true ∨ colLE c d b a = true := by
  unfold colLE; split_ifs <;> exact lexLE_total _ _ _ _

/-- Transitivity of the column comparison. -/
theorem colLE_trans (c : String) (d : Bool) {a b e : Snip}
    (hab : colLE c d a b = true) (hbe : colLE c d b e = true) :
    colLE c d a e = true := by
  unfold colLE at hab hbe ⊢
  split_ifs at hab hbe ⊢ <;> exact lexLE_trans _ _ hab hbe

/-- Two rows each below the other under the column comparison share an id. -/
theorem colLE_antisymm_id (c : String) (d : Bool) {a b : Snip}
    (hab : colLE c d a b = true) (hba : colLE c d b a = true) : a.ID = b.ID := by
  unfold colLE at hab hba
  split_ifs at hab hba <;> exact lexLE_antisymm_id _ _ hab hba

instance (c : String) (d : Bool) : IsTotal Snip (fun a b => colLE c d a b = true) :=
  ⟨colLE_total c d⟩

instance (c : String) (d : Bool) : IsTrans Snip (fun a b => colLE c d a b = true) :=
  ⟨fun _ _ _ => colLE_trans c d⟩


/-! ### Properties of the validator -/

/-- An error on a field survives any later check, whatever its outcome. -/
theorem hasError_check_mono (v : Validator) (b : Bool) (k m key : String)
    (h : v.hasError key = true) : (v.check b k m).hasError key = true := by
  cases b
  · by_cases hk : v.hasError k = true
    · simp [Validator.check, Validator.addError, hk, h]
    · simp [Validator.check, Validator.addError, hk]
      unfold Validator.hasError at h ⊢
      simp [List.any_append, h]
  · simp [Validator.check, h]

/-- A failed check leaves an error on its field. -/
theorem hasError_check_false (v : Validator) (k m : String) :
    (v.check false k m).hasError k = true := by
  by_cases hk : v.hasError k = true
  · simp [Validator.check, Validator.addError, hk]
  · simp [Validator.check, Validator.addError, hk]
    unfold Validator.hasError
    simp

/-- A validator holding an error on some field is not valid. -/
theorem valid_eq_false_of_hasError (v : Validator) (key : String)
    (h : v.hasError key = true) : v.valid = false := by
  unfold Validator.hasError at h
  rcases List.any_eq_true.mp h with ⟨e, he, _⟩
  unfold Validator.valid
  cases hv : v.Errors with
  | nil => rw [hv] at he; cases he
  | cons hd tl => simp [hv]

/-- An error on a field survives the per-tag empty-string check loop. -/
theorem hasError_foldl_mono (tags : List String) (v : Validator) (key m : String)
    (h : v.hasError key = true) :
    (tags.foldl (fun acc tag => acc.check (tag != "") "tags" m) v).hasError key = true := by
  induction tags generalizing v with
  | nil => exact h
  | cons hd tl ih => exact ih _ (hasError_check_mono v _ _ _ _ h)

/-- The per-tag loop flags the tags field when some tag is empty. -/
theorem hasError_foldl_empty (tags : List String) (v : Validator) (m : String)
    (h : ∃ t ∈ tags, t = "") :
    (tags.foldl (fun acc tag => acc.check (tag != "") "tags" m) v).hasError "tags" = true := by
  induction tags generalizing v with
  | nil => rcases h with ⟨t, ht, _⟩; cases ht
  | cons hd tl ih =>
    rcases h with ⟨t, ht, hte⟩
    rcases List.mem_cons.mp ht with heq | htl
    · have hhd : (hd != "") = false := by
        rw [← heq, hte]; rfl
      simp only [List.foldl_cons, hhd]
      exact hasError_foldl_mono tl _ _ _ (hasError_check_false v "tags" m)
    · exact ih _ ⟨t, htl, hte⟩

/-- A passing check leaves the validator unchanged. -/
theorem check_true (v : Validator) (k m : String) : v.check true k m = v := rfl

/-- The per-tag loop is the identity when no tag is empty. -/
theorem foldl_no_empty (tags : List String) (v : Validator) (m : String)
    (h : ∀ t ∈ tags, t ≠ "") :
    tags.foldl (fun acc tag => acc.check (tag != "") "tags" m) v = v := by
  induction tags generalizing v with
  | nil => rfl
  | cons hd tl ih =>
    have hhd : (hd != "") = true := by
      simpa using h hd (List.mem_cons_self hd tl)
    simp only [List.foldl_cons, hhd, check_true]
    exact ih v (fun t ht => h t (List.mem_cons_of_mem hd ht))

/-- A check whose message differs never introduces a given error entry. -/
theorem pair_not_mem_check (v : Validator) (b : Bool) (k m k0 m0 : String)
    (hne : m ≠ m0) (h : (k0, m0) ∉ v.Errors) : (k0, m0) ∉ (v.check b k m).Errors := by
  unfold Validator.check Validator.addError
  cases b
  · simp only [Bool.false_eq_true, if_false]
    by_cases hk : v.hasError k = true
    · simpa [hk]
    · simp only [hk, if_false]
      intro hmem
      rcases List.mem_append.mp hmem with hv | hone
      · exact h hv
      · rcases List.mem_singleton.mp hone with heq
        exact hne (congrArg Prod.snd heq).symm
  · simpa

/-- The per-tag loop never introduces an entry with a foreign message. -/
theorem pair_not_mem_foldl (tags : List String) (v : Validator) (m k0 m0 : String)
    (hne : m ≠ m0) (h : (k0, m0) ∉ v.Errors) :
    (k0, m0) ∉ (tags.foldl (fun acc tag => acc.check (tag != "") "tags" m) v).Errors := by
  induction tags generalizing v with
  | nil => exact h
  | cons hd tl ih => exact ih _ (pair_not_mem_check v _ _ m k0 m0 hne h)


/-! ### Properties of row lookup -/

/-- The row a lookup returns satisfies the lookup predicate. -/
theorem find?_pred_of_eq_some {α : Type} (p : α → Bool) (l : List α) (a : α)
    (h : l.find? p = some a) : p a = true := List.find?_some h

/-- A lookup whose head satisfies the predicate returns the head. -/
theorem find?_cons_pos {α : Type} (p : α → Bool) (a : α) (l : List α) (h : p a = true) :
    (a :: l).find? p = some a := List.find?_cons_of_pos l h

/-- Lookup over an appended list scans the left part first. -/
theorem find?_append_none {α : Type} (p : α → Bool) (l1 l2 : List α)
    (h : ∀ x ∈ l1, ¬p x = true) : (l1 ++ l2).find? p = l2.find? p := by
  induction l1 with
  | nil => rfl
  | cons hd tl ih =>
    rw [List.cons_append, List.find?_cons_of_neg _ (h hd (List.mem_cons_self hd tl))]
    exact ih (fun x hx => h x (List.mem_cons_of_mem hd hx))

/-- With pairwise-distinct ids, looking up the id of a member row finds
exactly that row. -/
theorem find?_id_of_pairwise (l : List Snip)
    (hnd : l.Pairwise (fun a b => a.ID ≠ b.ID)) (r : Snip) (hm : r ∈ l) :
    l.find? (fun x => x.ID == r.ID) = some r := by
  induction l with
  | nil => cases hm
  | cons hd tl ih =>
    rcases List.mem_cons.mp hm with heq | htl
    · rw [heq]
      exact List.find?_cons_of_pos _ (beq_self_eq_true hd.ID)
    · have hne : hd.ID ≠ r.ID := (List.pairwise_cons.mp hnd).1 r htl
      rw [List.find?_cons_of_neg _ (by simpa using hne)]
      exact ih (List.pairwise_cons.mp hnd).2 htl

/-- Deleting rows whose id misses every stored row reports not found with
the table unchanged. -/
theorem delete_no_match (db : DB) (id : Int) (h : ∀ r ∈ db.rows, r.ID ≠ id) :
    SnipModel.Delete db id = (db, Except.error ModelError.recordNotFound) := by
  unfold SnipModel.Delete
  by_cases hlt : id < 1
  · simp [hlt]
  · have hkeep : db.rows.filter (fun r => !(r.ID == id)) = db.rows :=
      List.filter_eq_self.mpr (fun r hr => by simpa using h r hr)
    simp [hlt, hkeep]


/-- A Get over id-preserving per-row rewrites finds the rewritten member
row. -/
theorem get_after_map_id_preserving (rows : List Snip) (nid : Int) (f : Snip → Snip)
    (hf : ∀ x, (f x).ID = x.ID)
    (hnd : rows.Pairwise (fun a b => a.ID ≠ b.ID)) (r : Snip) (hm : r ∈ rows)
    (hge : 1 ≤ r.ID) :
    SnipModel.Get ⟨rows.map f, nid⟩ r.ID none = Except.ok (f r) := by
  have hnd2 : (rows.map f).Pairwise (fun a b => a.ID ≠ b.ID) := by
    rw [List.pairwise_map]
    exact hnd.imp (fun {a b} hab => by rw [hf a, hf b]; exact hab)
  have hfind := find?_id_of_pairwise _ hnd2 (f r) (List.mem_map_of_mem f hm)
  rw [hf r] at hfind
  unfold SnipModel.Get
  rw [if_neg (not_lt.mpr hge), hfind]

/-! ### Claim theorems -/

/-- C2: an Update whose (id, version) pair matches no stored row returns
ErrEditConflict, never ErrRecordNotFound, and leaves the table unchanged,
so a subsequent Get of any id returns exactly what it returned before. -/
theorem update_stale_version_is_conflict (db : DB) (snip : Snip)
    (h : ∀ r ∈ db.rows, ¬(r.ID = snip.ID ∧ r.Version = snip.Version)) :
    SnipModel.Update db snip = (db, Except.error ModelError.editConflict) ∧
    (∀ (i : Int) (fl : Option String),
      SnipModel.Get (SnipModel.Update db snip).1 i fl = SnipModel.Get db i fl) := by
  have hany : (db.rows.any fun r => r.ID == snip.ID && r.Version == snip.Version) = false := by
    rw [List.any_eq_false]
    intro r hr hp
    exact h r hr (by simpa using hp)
  have h1 : SnipModel.Update db snip = (db, Except.error ModelError.editConflict) := by
    unfold SnipModel.Update
    simp [hany]
  exact ⟨h1, fun i fl => by rw [h1]⟩

/-- Witness for C2: updating the sole row with a wrong version conflicts. -/
theorem update_stale_version_is_conflict_witness :
    SnipModel.Update ⟨[⟨1, 0, "a", "", [], 1⟩], 2⟩ ⟨1, 0, "b", "", [], 2⟩ =
      (⟨[⟨1, 0, "a", "", [], 1⟩], 2⟩, Except.error ModelError.editConflict) :=
  (update_stale_version_is_conflict ⟨[⟨1, 0, "a", "", [], 1⟩], 2⟩ ⟨1, 0, "b", "", [], 2⟩
    (by decide)).1

/-- C3: an Update supplying the current version of a stored row succeeds,
bumps the stored version by exactly one (the client never sets it), and
persists the supplied title, content and tags, as a subsequent Get shows. -/
theorem update_current_version_succeeds (db : DB) (r snip : Snip) (hwf : db.WF)
    (hmem : r ∈ db.rows) (hid : snip.ID = r.ID) (hver : snip.Version = r.Version) :
    (SnipModel.Update db snip).2 = Except.ok (r.Version + 1) ∧
    SnipModel.Get (SnipModel.Update db snip).1 r.ID none =
      Except.ok { ID := r.ID, CreatedAt := r.CreatedAt, Title := snip.Title,
                  Content := snip.Content, Tags := snip.Tags, Version := r.Version + 1 } := by
  have hhit : (r.ID == snip.ID && r.Version == snip.Version) = true := by
    simp [hid, hver]
  have hany : (db.rows.any fun x => x.ID == snip.ID && x.Version == snip.Version) = true :=
    List.any_eq_true.mpr ⟨r, hmem, hhit⟩
  have hupd : SnipModel.Update db snip =
      ({ db with rows := db.rows.map (fun x =>
          if x.ID == snip.ID && x.Version == snip.Version then
            { x with Title := snip.Title, Content := snip.Content,
                     Tags := snip.Tags, Version := x.Version + 1 }
          else x) },
       Except.ok (snip.Version + 1)) := by
    unfold SnipModel.Update
    simp [hany]
  constructor
  · rw [hupd, hver]
  · rw [hupd]
    have hf : ∀ x : Snip, ((fun x : Snip =>
        if x.ID == snip.ID && x.Version == snip.Version then
          { x with Title := snip.Title, Content := snip.Content,
                   Tags := snip.Tags, Version := x.Version + 1 }
        else x) x).ID = x.ID := by
      intro x
      by_cases hx : (x.ID == snip.ID && x.Version == snip.Version) = true <;> simp [hx]
    have hmain := get_after_map_id_preserving db.rows db.nextId _ hf hwf.1 r hmem
      (hwf.2.1 r hmem).1
    rw [hmain]
    simp [hhit]

/-- Witness for C3: updating the sole row at its current version stores the
new fields at version 2. -/
theorem update_current_version_succeeds_witness :
    (SnipModel.Update ⟨[⟨1, 7, "t", "c", ["x"], 1⟩], 2⟩ ⟨1, 0, "t2", "c2", ["y"], 1⟩).2 =
      Except.ok (1 + 1) ∧
    SnipModel.Get (SnipModel.Update ⟨[⟨1, 7, "t", "c", ["x"], 1⟩], 2⟩
        ⟨1, 0, "t2", "c2", ["y"], 1⟩).1 1 none =
      Except.ok ⟨1, 7, "t2", "c2", ["y"], 1 + 1⟩ :=
  update_current_version_succeeds ⟨[⟨1, 7, "t", "c", ["x"], 1⟩], 2⟩
    ⟨1, 7, "t", "c", ["x"], 1⟩ ⟨1, 0, "t2", "c2", ["y"], 1⟩ (by decide)
    (List.mem_cons_self _ _) rfl rfl

/-- C5: inserting a record assigns id, created_at and version 1 server-side
and a Get at the assigned id returns the populated record, equal to the
input in title, content and tags. -/
theorem insert_get_roundtrip (db : DB) (now : Nat) (snip : Snip) (hwf : db.WF) :
    ∃ populated : Snip,
      SnipModel.Insert db now snip = (⟨db.rows ++ [populated], db.nextId + 1⟩, populated) ∧
      populated.Version = 1 ∧ populated.Title = snip.Title ∧
      populated.Content = snip.Content ∧ populated.Tags = snip.Tags ∧
      SnipModel.Get (SnipModel.Insert db now snip).1 populated.ID none =
        Except.ok populated := by
  refine ⟨⟨db.nextId, now, snip.Title, snip.Content, snip.Tags, 1⟩,
    rfl, rfl, rfl, rfl, rfl, ?_⟩
  have hge : ¬ db.nextId < 1 := not_lt.mpr hwf.2.2
  have hnone : ∀ x ∈ db.rows, ¬ ((fun r : Snip => r.ID == db.nextId) x = true) := by
    intro x hx hbx
    exact absurd (by simpa using hbx) (ne_of_lt (hwf.2.1 x hx).2)
  show SnipModel.Get ⟨db.rows ++ [⟨db.nextId, now, snip.Title, snip.Content, snip.Tags, 1⟩],
      db.nextId + 1⟩ db.nextId none =
    Except.ok ⟨db.nextId, now, snip.Title, snip.Content, snip.Tags, 1⟩
  have hpos : ((fun r : Snip => r.ID == db.nextId)
      (⟨db.nextId, now, snip.Title, snip.Content, snip.Tags, 1⟩ : Snip)) = true :=
    beq_self_eq_true db.nextId
  unfold SnipModel.Get
  rw [if_neg hge, find?_append_none _ _ _ hnone,
    find?_cons_pos (fun r : Snip => r.ID == db.nextId) _ _ hpos]

/-- Witness for C5: inserting into an empty table and fetching id 1. -/
theorem insert_get_roundtrip_witness :
    ∃ populated : Snip,
      SnipModel.Insert ⟨[], 1⟩ 5 ⟨0, 0, "t", "c", ["x"], 0⟩ =
        (⟨[] ++ [populated], 1 + 1⟩, populated) ∧
      populated.Version = 1 ∧ populated.Title = "t" ∧
      populated.Content = "c" ∧ populated.Tags = ["x"] ∧
      SnipModel.Get (SnipModel.Insert ⟨[], 1⟩ 5 ⟨0, 0, "t", "c", ["x"], 0⟩).1
        populated.ID none = Except.ok populated :=
  insert_get_roundtrip ⟨[], 1⟩ 5 ⟨0, 0, "t", "c", ["x"], 0⟩ (by decide)

/-- C7: Delete short-circuits ids below 1 to ErrRecordNotFound, reports
ErrRecordNotFound when no row carries the id, and when a row exists it
succeeds and removes every row with that id, so deleting the same id again
reports ErrRecordNotFound. -/
theorem delete_missing_not_found_and_idempotent (db : DB) (id : Int) :
    (id < 1 → SnipModel.Delete db id = (db, Except.error ModelError.recordNotFound)) ∧
    ((∀ r ∈ db.rows, r.ID ≠ id) →
      SnipModel.Delete db id = (db, Except.error ModelError.recordNotFound)) ∧
    (1 ≤ id → ∀ r0 ∈ db.rows, r0.ID = id →
      (SnipModel.Delete db id).2 = Except.ok () ∧
      (∀ r ∈ (SnipModel.Delete db id).1.rows, r.ID ≠ id) ∧
      (SnipModel.Delete (SnipModel.Delete db id).1 id).2 =
        Except.error ModelError.recordNotFound) := by
  refine ⟨?_, delete_no_match db id, ?_⟩
  · intro hlt
    unfold SnipModel.Delete
    simp [hlt]
  · intro hge r0 hr0 hid0
    have hlt : ¬ id < 1 := not_lt.mpr hge
    have hless : (db.rows.filter (fun r => !(r.ID == id))).length < db.rows.length := by
      rw [List.length_filter_lt_length_iff_exists]
      exact ⟨r0, hr0, by simp [hid0]⟩
    have haff : (db.rows.length - (db.rows.filter (fun r => !(r.ID == id))).length == 0)
        = false := by
      simpa using Nat.sub_ne_zero_of_lt hless
    have hdel : SnipModel.Delete db id =
        ({ db with rows := db.rows.filter (fun r => !(r.ID == id)) }, Except.ok ()) := by
      unfold SnipModel.Delete
      simp only [hlt, if_false, haff, Bool.false_eq_true]
    have hclean : ∀ r ∈ (db.rows.filter (fun r => !(r.ID == id))), r.ID ≠ id := by
      intro r hr
      simpa using (List.mem_filter.mp hr).2
    refine ⟨by rw [hdel], ?_, ?_⟩
    · rw [hdel]
      exact hclean
    · rw [hdel]
      rw [delete_no_match { db with rows := db.rows.filter (fun r => !(r.ID == id)) } id hclean]

/-- Witness for C7: deleting the sole row succeeds and deleting it again
reports not found. -/
theorem delete_missing_not_found_and_idempotent_witness :
    (SnipModel.Delete ⟨[⟨1, 0, "a", "", [], 1⟩], 2⟩ 1).2 = Except.ok () ∧
    (SnipModel.Delete (SnipModel.Delete ⟨[⟨1, 0, "a", "", [], 1⟩], 2⟩ 1).1 1).2 =
      Except.error ModelError.recordNotFound := by
  have h := (delete_missing_not_found_and_idempotent ⟨[⟨1, 0, "a", "", [], 1⟩], 2⟩ 1).2.2
    (by decide) ⟨1, 0, "a", "", [], 1⟩ (List.mem_cons_self _ _) rfl
  exact ⟨h.1, h.2.2⟩

/-- C8: Get short-circuits ids below 1 to ErrRecordNotFound regardless of
table contents or executor outcome, maps an injected executor failure to a
propagated store error, reports ErrRecordNotFound exactly when no row
matches, and returns the matching row when one exists. -/
theorem get_point_lookup (db : DB) (id : Int) :
    (id < 1 → ∀ fl : Option String,
      SnipModel.Get db id fl = Except.error ModelError.recordNotFound) ∧
    (1 ≤ id → ∀ e : String,
      SnipModel.Get db id (some e) = Except.error (ModelError.storeError e)) ∧
    (1 ≤ id →
      (SnipModel.Get db id none = Except.error ModelError.recordNotFound ↔
        ∀ r ∈ db.rows, r.ID ≠ id)) ∧
    (1 ≤ id → db.rows.Pairwise (fun a b => a.ID ≠ b.ID) →
      ∀ r ∈ db.rows, r.ID = id → SnipModel.Get db id none = Except.ok r) := by
  refine ⟨?_, ?_, ?_, ?_⟩
  · intro hlt fl
    unfold SnipModel.Get
    simp [hlt]
  · intro hge e
    unfold SnipModel.Get
    simp [not_lt.mpr hge]
  · intro hge
    have hlt : ¬ id < 1 := not_lt.mpr hge
    unfold SnipModel.Get
    rw [if_neg hlt]
    rcases hfq : db.rows.find? (fun r => r.ID == id) with _ | r
    · rw [hfq]
      refine iff_of_true rfl ?_
      intro r hr
      simpa using List.find?_eq_none.mp hfq r hr
    · rw [hfq]
      have hmem := List.mem_of_find?_eq_some hfq
      have hid := find?_pred_of_eq_some (fun x : Snip => x.ID == id) db.rows r hfq
      refine iff_of_false (by simp) ?_
      intro hall
      exact hall r hmem (by simpa using hid)
  · intro hge hnd r hr hid
    have hlt : ¬ id < 1 := not_lt.mpr hge
    subst hid
    unfold SnipModel.Get
    rw [if_neg hlt, find?_id_of_pairwise db.rows hnd r hr]

/-- Witness for C8: short-circuit below 1, failure propagation, and the
point lookup on a one-row table. -/
theorem get_point_lookup_witness :
    SnipModel.Get ⟨[⟨1, 0, "a", "", [], 1⟩], 2⟩ 0 (some "boom") =
      Except.error ModelError.recordNotFound ∧
    SnipModel.Get ⟨[⟨1, 0, "a", "", [], 1⟩], 2⟩ 1 (some "boom") =
      Except.error (ModelError.storeError "boom") ∧
    SnipModel.Get ⟨[⟨1, 0, "a", "", [], 1⟩], 2⟩ 1 none =
      Except.ok ⟨1, 0, "a", "", [], 1⟩ :=
  ⟨(get_point_lookup ⟨[⟨1, 0, "a", "", [], 1⟩], 2⟩ 0).1 (by decide) (some "boom"),
   (get_point_lookup ⟨[⟨1, 0, "a", "", [], 1⟩], 2⟩ 1).2.1 (by decide) "boom",
   (get_point_lookup ⟨[⟨1, 0, "a", "", [], 1⟩], 2⟩ 1).2.2.2 (by decide) (by decide)
     ⟨1, 0, "a", "", [], 1⟩ (List.mem_cons_self _ _) rfl⟩


/-- C4: a sort value whose dash-stripped form is not in the safelist fails
filter validation with an error on the sort field, and the resolved sort
column interpolated into the ORDER BY clause is always a member of the
safelist, never the raw client string on a safelist miss. -/
theorem sort_safelist_gate (v : Validator) (f : Filters) :
    (stripDash f.sort ∉ f.SortSafelist →
      (ValidateFilters v f).hasError "sort" = true ∧
      (ValidateFilters v f).valid = false) ∧
    (∀ c : String, f.sortColumn = some c → c ∈ f.SortSafelist) := by
  constructor
  · intro hnm
    have hcon : f.SortSafelist.contains (stripDash f.sort) = false := by
      simpa using hnm
    have h1 : (ValidateFilters v f).hasError "sort" = true := by
      simp only [ValidateFilters, hcon]
      exact hasError_check_false _ _ _
    exact ⟨h1, valid_eq_false_of_hasError _ _ h1⟩
  · intro c hc
    unfold Filters.sortColumn at hc
    by_cases hcon : f.SortSafelist.contains (stripDash f.sort) = true
    · rw [if_pos hcon] at hc
      obtain rfl := Option.some.inj hc
      simpa using hcon
    · rw [if_neg hcon] at hc
      cases hc

/-- Witness for C4: the sort value evil is rejected on the sort field. -/
theorem sort_safelist_gate_witness :
    (ValidateFilters Validator.new ⟨1, 20, "evil", ["id", "title", "content"]⟩).hasError
      "sort" = true ∧
    (ValidateFilters Validator.new ⟨1, 20, "evil", ["id", "title", "content"]⟩).valid
      = false :=
  (sort_safelist_gate Validator.new ⟨1, 20, "evil", ["id", "title", "content"]⟩).1
    (by decide)

/-- C6: one ValidateSnip call flags every violation present without short
circuiting: empty title, oversized title, oversized content, more than ten
tags, duplicate tags, and an empty tag each leave an error on their field,
all simultaneously observable on the same result. -/
theorem validate_snip_reports_all_violations (v : Validator) (s : Snip) :
    (s.Title = "" → (ValidateSnip v s).hasError "title" = true) ∧
    (1000 < s.Title.utf8ByteSize → (ValidateSnip v s).hasError "title" = true) ∧
    (100000 < s.Content.utf8ByteSize → (ValidateSnip v s).hasError "content" = true) ∧
    (10 < s.Tags.length → (ValidateSnip v s).hasError "tags" = true) ∧
    (Unique s.Tags = false → (ValidateSnip v s).hasError "tags" = true) ∧
    ((∃ t ∈ s.Tags, t = "") → (ValidateSnip v s).hasError "tags" = true) := by
  refine ⟨?_, ?_, ?_, ?_, ?_, ?_⟩ <;> intro h
  · have hc : (s.Title != "") = false := by simp [h]
    simp only [ValidateSnip, hc]
    exact hasError_foldl_mono _ _ _ _ (hasError_check_mono _ _ _ _ _
      (hasError_check_mono _ _ _ _ _ (hasError_check_mono _ _ _ _ _
        (hasError_check_mono _ _ _ _ _ (hasError_check_mono _ _ _ _ _
          (hasError_check_false v "title" _))))))
  · have hc : decide (s.Title.utf8ByteSize ≤ 1000) = false :=
      decide_eq_false (not_le.mpr h)
    simp only [ValidateSnip, hc]
    exact hasError_foldl_mono _ _ _ _ (hasError_check_mono _ _ _ _ _
      (hasError_check_mono _ _ _ _ _ (hasError_check_mono _ _ _ _ _
        (hasError_check_mono _ _ _ _ _ (hasError_check_false _ "title" _)))))
  · have hc : decide (s.Content.utf8ByteSize ≤ 100000) = false :=
      decide_eq_false (not_le.mpr h)
    simp only [ValidateSnip, hc]
    exact hasError_foldl_mono _ _ _ _ (hasError_check_mono _ _ _ _ _
      (hasError_check_mono _ _ _ _ _ (hasError_check_mono _ _ _ _ _
        (hasError_check_false _ "content" _))))
  · have hc : decide (s.Tags.length ≤ 10) = false := decide_eq_false (not_le.mpr h)
    simp only [ValidateSnip, hc]
    exact hasError_foldl_mono _ _ _ _ (hasError_check_mono _ _ _ _ _
      (hasError_check_false _ "tags" _))
  · simp only [ValidateSnip, h]
    exact hasError_foldl_mono _ _ _ _ (hasError_check_false _ "tags" _)
  · simp only [ValidateSnip]
    exact hasError_foldl_empty _ _ _ h

/-- Witness for C6: a snip with an empty title and a duplicated tag is
flagged on both fields in one call. -/
theorem validate_snip_reports_all_violations_witness :
    (ValidateSnip Validator.new ⟨0, 0, "", "", ["a", "a", ""], 0⟩).hasError "title"
      = true ∧
    (ValidateSnip Validator.new ⟨0, 0, "", "", ["a", "a", ""], 0⟩).hasError "tags"
      = true := by
  have h := validate_snip_reports_all_violations Validator.new ⟨0, 0, "", "", ["a", "a", ""], 0⟩
  exact ⟨h.1 rfl, h.2.2.2.2.1 (by decide)⟩

/-- C10: ValidateSnip adds no error for a record with a non-empty title of
at most 1000 bytes, content of at most 100000 bytes, and at most ten
pairwise-distinct non-empty tags; and the non-negative tag-count check can
never fail, so its error entry is never recorded for any input. -/
theorem validate_snip_accepts_valid (v : Validator) (s : Snip)
    (ht : s.Title ≠ "") (htl : s.Title.utf8ByteSize ≤ 1000)
    (hc : s.Content.utf8ByteSize ≤ 100000) (htc : s.Tags.length ≤ 10)
    (hu : Unique s.Tags = true) (hne : ∀ t ∈ s.Tags, t ≠ "") :
    ValidateSnip v s = v ∧
    (∀ (w : Validator) (s2 : Snip),
      ("tags", "may not contain negative tags") ∉ w.Errors →
      ("tags", "may not contain negative tags") ∉ (ValidateSnip w s2).Errors) := by
  constructor
  · have h1 : (s.Title != "") = true := by simpa using ht
    have h2 : decide (s.Title.utf8ByteSize ≤ 1000) = true := decide_eq_true htl
    have h3 : decide (s.Content.utf8ByteSize ≤ 100000) = true := decide_eq_true hc
    have h4 : decide (0 ≤ s.Tags.length) = true := decide_eq_true (Nat.zero_le _)
    have h5 : decide (s.Tags.length ≤ 10) = true := decide_eq_true htc
    simp only [ValidateSnip, h1, h2, h3, h4, h5, hu, check_true]
    exact foldl_no_empty s.Tags v _ hne
  · intro w s2 hmem
    have h4 : decide (0 ≤ s2.Tags.length) = true := decide_eq_true (Nat.zero_le _)
    simp only [ValidateSnip, h4, check_true]
    exact pair_not_mem_foldl _ _ _ _ _ (by decide)
      (pair_not_mem_check _ _ _ _ _ _ (by decide)
        (pair_not_mem_check _ _ _ _ _ _ (by decide)
          (pair_not_mem_check _ _ _ _ _ _ (by decide)
            (pair_not_mem_check _ _ _ _ _ _ (by decide)
              (pair_not_mem_check _ _ _ _ _ _ (by decide) hmem)))))

/-- Witness for C10: a well-formed snip passes validation unchanged. -/
theorem validate_snip_accepts_valid_witness :
    ValidateSnip Validator.new ⟨0, 0, "t", "c", ["x", "y"], 0⟩ = Validator.new :=
  (validate_snip_accepts_valid Validator.new ⟨0, 0, "t", "c", ["x", "y"], 0⟩
    (by decide) (by decide) (by decide) (by decide) rfl (by decide)).1


/-- C9: the search result is sorted by the resolved column in the resolved
direction with an ascending id tie-break; with distinct stored ids no two
returned rows compare equal, so the order is total and the deterministic
query reproduces it on every identical run; and with empty title, empty
tags and the default filters every row is returned, ordered by ascending
id. -/
theorem getAll_total_order (db : DB) (title : String) (tags : List String)
    (f : Filters) (c : String) (hwf : db.WF) (hc : f.sortColumn = some c) :
    (∃ l : List Snip,
      SnipModel.GetAll db title tags f = Except.ok l ∧
      l.Perm (db.rows.filter (rowMatches title tags)) ∧
      List.Sorted (fun a b => colLE c (f.sortDirection == "DESC") a b = true) l ∧
      List.Pairwise (fun a b =>
        ¬(colLE c (f.sortDirection == "DESC") a b = true ∧
          colLE c (f.sortDirection == "DESC") b a = true)) l) ∧
    (∀ db2 : DB, ∃ l2 : List Snip,
      SnipModel.GetAll db2 "" [] defaultFilters = Except.ok l2 ∧
      l2.Perm db2.rows ∧ List.Sorted (fun a b : Snip => a.ID ≤ b.ID) l2) := by
  constructor
  · refine ⟨List.insertionSort (fun a b => colLE c (f.sortDirection == "DESC") a b = true)
      (db.rows.filter (rowMatches title tags)), ?_, ?_, ?_, ?_⟩
    · unfold SnipModel.GetAll
      rw [hc]
    · exact List.perm_insertionSort _ _
    · exact List.sorted_insertionSort _ _
    · have hnd : (db.rows.filter (rowMatches title tags)).Pairwise
          (fun a b => a.ID ≠ b.ID) := hwf.1.filter _
      have hperm := List.perm_insertionSort
        (fun a b => colLE c (f.sortDirection == "DESC") a b = true)
        (db.rows.filter (rowMatches title tags))
      have hnd2 : (List.insertionSort
          (fun a b => colLE c (f.sortDirection == "DESC") a b = true)
          (db.rows.filter (rowMatches title tags))).Pairwise
            (fun a b => a.ID ≠ b.ID) :=
        (List.Perm.pairwise_iff (fun hab => hab.symm) hperm).mpr hnd
      exact hnd2.imp (fun {a b} hab hcontra =>
        hab (colLE_antisymm_id _ _ hcontra.1 hcontra.2))
  · intro db2
    have hfil : db2.rows.filter (rowMatches "" []) = db2.rows :=
      List.filter_eq_self.mpr (fun a _ => rfl)
    refine ⟨List.insertionSort (fun a b => colLE "id" false a b = true)
      (db2.rows.filter (rowMatches "" [])), rfl, ?_, ?_⟩
    · have hperm := List.perm_insertionSort (fun a b => colLE "id" false a b = true)
        (db2.rows.filter (rowMatches "" []))
      have hrest : (db2.rows.filter (rowMatches "" [])).Perm db2.rows := by
        rw [hfil]
      exact hperm.trans hrest
    · have hIDle : ∀ {a b : Snip}, colLE "id" false a b = true → a.ID ≤ b.ID := by
        intro a b hab
        have hab2 : lexLE (fun s : Snip => s.ID) false a b = true := hab
        rcases (lexLE_false_iff (fun s : Snip => s.ID) a b).mp hab2 with hlt | ⟨_, hle⟩
        · exact le_of_lt hlt
        · exact hle
      exact List.Pairwise.imp hIDle
        (List.sorted_insertionSort (fun a b => colLE "id" false a b = true)
          (db2.rows.filter (rowMatches "" [])))

/-- Witness for C9: a two-row table with the default filters comes back
whole, sorted ascending by id. -/
theorem getAll_total_order_witness :
    ∃ l : List Snip,
      SnipModel.GetAll ⟨[⟨2, 0, "b", "", [], 1⟩, ⟨1, 0, "a", "", [], 1⟩], 3⟩ "" []
        defaultFilters = Except.ok l ∧
      l.Perm ((⟨[⟨2, 0, "b", "", [], 1⟩, ⟨1, 0, "a", "", [], 1⟩], 3⟩ : DB).rows.filter
        (rowMatches "" [])) ∧
      List.Sorted (fun a b =>
        colLE "id" (defaultFilters.sortDirection == "DESC") a b = true) l ∧
      List.Pairwise (fun a b =>
        ¬(colLE "id" (defaultFilters.sortDirection == "DESC") a b = true ∧
          colLE "id" (defaultFilters.sortDirection == "DESC") b a = true)) l :=
  (getAll_total_order ⟨[⟨2, 0, "b", "", [], 1⟩, ⟨1, 0, "a", "", [], 1⟩], 3⟩ "" []
    defaultFilters "id" (by decide) rfl).1

/-- C1: the source query of GetAll carries no LIMIT, no OFFSET and no
window count, and its Go signature returns no metadata, so with a validated
filter spec of page 1 and page size 1 a two-row table still comes back in
full: pagination is not applied to the result. -/
theorem getAll_ignores_page_size :
    (⟨1, 1, "id", ["id", "title", "content", "-id", "-title", "-content"]⟩ : Filters).limit
      = 1 ∧
    (ValidateFilters Validator.new
      ⟨1, 1, "id", ["id", "title", "content", "-id", "-title", "-content"]⟩).valid
      = true ∧
    SnipModel.GetAll ⟨[⟨1, 0, "a", "", [], 1⟩, ⟨2, 0, "b", "", [], 1⟩], 3⟩ "" []
      ⟨1, 1, "id", ["id", "title", "content", "-id", "-title", "-content"]⟩ =
      Except.ok [⟨1, 0, "a", "", [], 1⟩, ⟨2, 0, "b", "", [], 1⟩] := by
  refine ⟨rfl, ?_, ?_⟩ <;> decide

end Sniplate
